import Mathlib

/-!
Verification of the varitype-cam repository: a shallow embedding of its
pixel/tone math, deterministic randomization, grid-dimension algorithm,
per-cell render/export algorithms, and MIDI parsing, with theorems settling
the frozen claims about the specification.

JavaScript numbers are embedded as exact rationals; bit-level operations of
the mulberry32 generator are embedded as naturals reduced mod 2^32 (matching
the coercions performed by JavaScript bitwise operators).
-/

namespace VaritypeCam

/-! ## Pixel/tone math (src/utils/luminance.ts) -/

/-- `calculateLuminance(r, g, b)` from src/utils/luminance.ts. -/
def calculateLuminance (r g b : ℚ) : ℚ :=
  0.299 * r + 0.587 * g + 0.114 * b

/-- `applyBrightness(luminance, brightness)` from src/utils/luminance.ts:
`clamp(L + brightness * 2.55, 0, 255)`. -/
def applyBrightness (luminance brightness : ℚ) : ℚ :=
  max 0 (min 255 (luminance + brightness * 2.55))

/-- The contrast factor `259*(contrast+255) / (255*(259-contrast))` computed
inside `applyContrast` in src/utils/luminance.ts. -/
def contrastFactor (contrast : ℚ) : ℚ :=
  (259 * (contrast + 255)) / (255 * (259 - contrast))

/-- `applyContrast(luminance, contrast)` from src/utils/luminance.ts. -/
def applyContrast (luminance contrast : ℚ) : ℚ :=
  max 0 (min 255 (contrastFactor contrast * (luminance - 128) + 128))

/-- `applyGamma(luminance, gamma)` from src/utils/luminance.ts. The host's
transcendental `Math.pow` is taken as an explicit function parameter `powFn`
(the claims proved below hold for every implementation of it). -/
def applyGamma (powFn : ℚ → ℚ → ℚ) (luminance gamma : ℚ) : ℚ :=
  max 0 (min 255 (powFn (luminance / 255) (1 / gamma) * 255))

/-- JavaScript `Math.round`: round half away from zero upward, i.e.
`Math.round(x) = floor(x + 0.5)`. -/
def jsRound (x : ℚ) : ℤ := ⌊x + 1 / 2⌋

/-- `mapToFontAxis(luminance, minAxis, maxAxis)` from src/utils/luminance.ts:
`round(minAxis + (L/255) * (maxAxis - minAxis))`. -/
def mapToFontAxis (luminance minAxis maxAxis : ℚ) : ℤ :=
  jsRound (minAxis + luminance / 255 * (maxAxis - minAxis))

end VaritypeCam

namespace VaritypeCam

/-! ## Grid-dimension algorithm (src/hooks/useAsciiRenderer.ts and the copy
in src/components/AsciiCam.tsx) -/

/-- Result record of the grid-dimension computation. -/
structure GridDims where
  cols : ℤ
  rows : ℤ
  canvasWidth : ℚ
  canvasHeight : ℚ
  charWidth : ℚ
  charHeight : ℚ
  fontSize : ℚ
  deriving Repr

/-- The aspect-ratio switch in `useAsciiRenderer`'s `gridDimensions` memo
(the non-`Auto` branch): `'4:3' → 4/3`, `'1:1' → 1`, `'16:9' → 16/9`,
anything else falls back to `16/9`. -/
def resolveAspect (s : String) : ℚ :=
  if s = "4:3" then 4 / 3
  else if s = "1:1" then 1
  else if s = "16:9" then 16 / 9
  else 16 / 9

/-- The aspect-ratio switch in the `gridDimensions` copy inside
`AsciiCam.tsx`, which adds the `'Tarot' → 536/765` case. -/
def resolveAspectCam (s : String) : ℚ :=
  if s = "4:3" then 4 / 3
  else if s = "1:1" then 1
  else if s = "Tarot" then 536 / 765
  else if s = "16:9" then 16 / 9
  else 16 / 9

/-- The `gridDimensions` memo of `useAsciiRenderer` (src/hooks/useAsciiRenderer.ts),
as a function of the viewport width, the selected font's glyph aspect value
`charAspect`, the aspect-ratio option string, and the resolution, letter-spacing
and line-height controls. -/
def gridDimensions (viewportWidth charAspect : ℚ) (aspectOpt : String)
    (resolution letterSpacing lineHeight : ℚ) : GridDims :=
  let targetCanvasWidth := min (viewportWidth * 0.8) 1600
  let targetAspect := resolveAspect aspectOpt
  let baseCols := resolution
  let fontSize := targetCanvasWidth / (baseCols * charAspect)
  let baseFontSize := fontSize
  let charWidth := baseFontSize * charAspect * letterSpacing
  let canvasWidth := targetCanvasWidth
  let cols : ℤ := ⌊canvasWidth / charWidth⌋
  let canvasHeight := canvasWidth / targetAspect
  let rowHeight := baseFontSize * lineHeight
  let rows : ℤ := ⌊canvasHeight / rowHeight⌋
  ⟨cols, rows, canvasWidth, canvasHeight, charWidth, rowHeight, baseFontSize⟩

/-- The `gridDimensions` memo duplicated in `AsciiCam.tsx` (used to build the
export settings); identical arithmetic, but resolving the aspect option through
the `Tarot`-aware switch. -/
def gridDimensionsCam (viewportWidth charAspect : ℚ) (aspectOpt : String)
    (resolution letterSpacing lineHeight : ℚ) : GridDims :=
  let targetCanvasWidth := min (viewportWidth * 0.8) 1600
  let targetAspect := resolveAspectCam aspectOpt
  let baseCols := resolution
  let fontSize := targetCanvasWidth / (baseCols * charAspect)
  let baseFontSize := fontSize
  let charWidth := baseFontSize * charAspect * letterSpacing
  let canvasWidth := targetCanvasWidth
  let cols : ℤ := ⌊canvasWidth / charWidth⌋
  let canvasHeight := canvasWidth / targetAspect
  let rowHeight := baseFontSize * lineHeight
  let rows : ℤ := ⌊canvasHeight / rowHeight⌋
  ⟨cols, rows, canvasWidth, canvasHeight, charWidth, rowHeight, baseFontSize⟩

/-- The grid-validity guard at the top of the render effect in
`useAsciiRenderer` (`if (!Number.isFinite(cols) || !Number.isFinite(rows) ||
cols <= 0 || rows <= 0) return;`): the effect draws (`some ()`) only when both
dimensions are positive; in this exact-rational embedding every value is
finite, so the guard reduces to the positivity test. -/
def renderEffect (cols rows : ℤ) : Option Unit :=
  if cols ≤ 0 ∨ rows ≤ 0 then none else some ()

/-! ## Variable font catalog (src/constants/fonts.ts) -/

/-- One axis declaration of a catalog font. -/
structure FontAxis where
  tag : String
  label : String
  min : ℚ
  max : ℚ
  deriving Repr, DecidableEq

/-- One entry of the `FONTS` catalog (the fields the claims depend on). -/
structure FontConfig where
  id : String
  family : String
  charAspect : ℚ
  primaryAxis : FontAxis
  deriving Repr, DecidableEq

/-- The `FONTS` catalog from src/constants/fonts.ts. -/
def FONTS : List FontConfig :=
  [⟨"geist-mono", "Geist Mono Variable", 0.6, ⟨"wght", "Weight", 100, 900⟩⟩,
   ⟨"lexia-mono", "lexia-mono-variable", 0.6, ⟨"wght", "Weight", 100, 900⟩⟩,
   ⟨"config-variable", "config-variable", 0.6, ⟨"wght", "Weight", 100, 900⟩⟩,
   ⟨"bd-orange-variable", "bd-orange-variable", 0.6, ⟨"wght", "Weight", 100, 800⟩⟩,
   ⟨"tourney-variable", "tourney-variable", 0.6, ⟨"wght", "Weight", 100, 900⟩⟩,
   ⟨"climate-crisis-variable", "climate-crisis-variable", 0.6, ⟨"YEAR", "Year", 1979, 2050⟩⟩,
   ⟨"ds-ddungsang-variable", "ds-ddungsang-variable", 0.6, ⟨"wght", "Weight", 400, 800⟩⟩,
   ⟨"luke-variable", "luke-variable", 0.6, ⟨"FILL", "Fill", 100, 300⟩⟩,
   ⟨"aglet-mono-variable", "aglet-mono-variable", 0.6, ⟨"wght", "Weight", 200, 900⟩⟩,
   ⟨"vinila-variable", "vinila-variable", 0.6, ⟨"wght", "Weight", 100, 900⟩⟩,
   ⟨"din-condensed-variable", "din-condensed-variable", 0.5, ⟨"wght", "Weight", 300, 600⟩⟩,
   ⟨"littlebit-dotty-variable", "littlebit-dotty-variable", 0.6, ⟨"DOTS", "Dot Size", 0, 1000⟩⟩,
   ⟨"gridlite-pe", "gridlite-pe-variable", 0.6, ⟨"wght", "Weight", 1, 900⟩⟩]

end VaritypeCam

namespace VaritypeCam

/-! ## Deterministic randomization (src/utils/seededRandom.ts) -/

/-- `2^32`, the modulus of every JavaScript 32-bit bitwise coercion. -/
def U32 : ℕ := 4294967296

/-- The mulberry32 mixing steps of `SeededRandom.next` applied to the
32-bit-coerced state `t`, written over naturals reduced mod `2^32`
(`Math.imul` is multiplication mod `2^32`; `^`, `|`, `>>>` act on the same
32-bit patterns). Returns the unsigned 32-bit output. -/
def mbMix (t0 : ℕ) : ℕ :=
  let t1 := ((t0 ^^^ (t0 >>> 15)) * (t0 ||| 1)) % U32
  let t2 := t1 ^^^ ((t1 + ((t1 ^^^ (t1 >>> 7)) * (t1 ||| 61)) % U32) % U32)
  (t2 ^^^ (t2 >>> 14)) % U32

/-- `SeededRandom.next()`: the state advances by the fixed increment
`0x6d2b79f5` (exact integer addition in JavaScript for the seeds in use) and
the mixed 32-bit output is produced from the coerced state. Returns the new
state together with the raw 32-bit output `u`; the JavaScript return value is
`u / 4294967296`. -/
def mbNext (state : ℕ) : ℕ × ℕ :=
  let s := state + 0x6d2b79f5
  (s, mbMix (s % U32))

/-- The `[0,1)` rational actually returned by `SeededRandom.next()`. -/
def mbNextVal (state : ℕ) : ℚ := ((mbNext state).2 : ℚ) / (U32 : ℚ)

/-- `SeededRandom.nextInt(max) = Math.floor(next() * max)` (exact for the
small `max` values in use), threading the generator state. -/
def mbNextInt (state maxVal : ℕ) : ℕ × ℕ :=
  ((mbNext state).1, ⌊mbNextVal state * (maxVal : ℚ)⌋₊)

/-- `getRandomChar(chars, seed, position)` from src/utils/seededRandom.ts:
empty input yields `" "`; otherwise a fresh generator seeded with
`seed + position` picks `chars[nextInt(chars.length)]`. -/
def getRandomChar (chars : List Char) (seed position : ℕ) : List Char :=
  if chars.length = 0 then [' ']
  else [chars.getD (mbNextInt (seed + position) chars.length).2 ' ']

/-- `getCharByLuminance(chars, luminance)`: maps luminance 0–255 to
`floor((L/255)·length)` clamped to the last index. -/
def getCharByLuminance (chars : List Char) (luminance : ℚ) : List Char :=
  if chars.length = 0 then [' ']
  else if chars.length = 1 then [chars.getD 0 ' ']
  else
    let index : ℤ := ⌊luminance / 255 * (chars.length : ℚ)⌋
    [chars.getD (min index ((chars.length : ℤ) - 1)).toNat ' ']

/-- Modelled from the spec: the body of `getCharByHue` is imported by the
renderer and the exporter from `../utils/seededRandom` but is absent from the
repository snapshot; §4.2 specifies the hue-mode analog of
`getCharByLuminance`: `index = floor((hue/360)·length)` clamped to
`[0, length-1]`. -/
def getCharByHue (chars : List Char) (hue : ℚ) : List Char :=
  if chars.length = 0 then [' ']
  else if chars.length = 1 then [chars.getD 0 ' ']
  else
    let index : ℤ := ⌊hue / 360 * (chars.length : ℚ)⌋
    [chars.getD (min index ((chars.length : ℤ) - 1)).toNat ' ']

/-- The destructuring swap `[chars[i], chars[j]] = [chars[j], chars[i]]` of
`shuffleString`: read both positions, then write both (identity when an index
is out of range, which the shuffle loop never produces). -/
def listSwap (l : List Char) (i j : ℕ) : List Char :=
  match l.get? i, l.get? j with
  | some a, some b => (l.set i b).set j a
  | _, _ => l

/-- The Fisher–Yates loop of `shuffleString`: `fuel` is the current index `i`,
descending from `length - 1` to `1`; each step draws `j = nextInt(i + 1)` and
swaps positions `i` and `j`. -/
def shuffleAux (state : ℕ) (l : List Char) : ℕ → List Char
  | 0 => l
  | Nat.succ k =>
    let i := k + 1
    let step := mbNextInt state (i + 1)
    shuffleAux step.1 (listSwap l i step.2) k

/-- `shuffleString(str, seed)` from src/utils/seededRandom.ts (the string is
represented by its character list). -/
def shuffleString (str : List Char) (seed : ℕ) : List Char :=
  shuffleAux seed str (str.length - 1)

end VaritypeCam

namespace VaritypeCam

/-! ## Per-cell algorithms: live render loop (src/hooks/useAsciiRenderer.ts,
final iteration's per-cell loop) and 4x export loop (src/hooks/useImageExport.ts) -/

/-- One grid cell's sample `{r,g,b,luminance,hue}` as produced by
`getPixelFromImageData`. -/
structure Pixel where
  r : ℚ
  g : ℚ
  b : ℚ
  luminance : ℚ
  hue : ℚ
  deriving Repr, DecidableEq

/-- The three `mappingMode` values. -/
inductive MappingMode
  | random
  | gradient
  | hue
  deriving Repr, DecidableEq

/-- The per-cell inputs shared by the live render loop and the 4x exporter:
character set, selection mode, the `randomize` flag (carried in the export
settings), the video filters, the primary-axis range, and the column count. -/
structure CellSettings where
  characters : List Char
  mappingMode : MappingMode
  randomize : Bool
  brightness : ℚ
  contrast : ℚ
  gamma : ℚ
  invert : Bool
  minAxis : ℚ
  maxAxis : ℚ
  cols : ℕ
  deriving Repr

/-- `settings.characters || 'M'` (the `singleChar` fallback cached by both
loops): the full character string, or `"M"` when it is empty. -/
def singleCharOf (chars : List Char) : List Char :=
  if chars = [] then ['M'] else chars

/-- The filter chain both loops apply to the raw luminance before axis
mapping: gamma → brightness → contrast, then `255 − L` when invert is on. -/
def filterLuminance (powFn : ℚ → ℚ → ℚ) (s : CellSettings) (lum : ℚ) : ℚ :=
  let l1 := applyGamma powFn lum s.gamma
  let l2 := applyBrightness l1 s.brightness
  let l3 := applyContrast l2 s.contrast
  if s.invert then 255 - l3 else l3

/-- Character selection of the live render loop's per-cell body
(src/hooks/useAsciiRenderer.ts, final iteration, using the ORIGINAL pixel
data): single-char sets short-circuit; hue mode and gradient mode select from
the shuffled string; otherwise the pre-generated random lookup is consulted. -/
def liveCellChar (s : CellSettings) (gradientChars : List Char)
    (charLookup : Option (List (List Char))) (pix : Pixel) (row col : ℕ) :
    List Char :=
  if ¬ 1 < s.characters.length then singleCharOf s.characters
  else if s.mappingMode = .hue then getCharByHue gradientChars pix.hue
  else if s.mappingMode = .gradient then getCharByLuminance gradientChars pix.luminance
  else
    match charLookup with
    | some lookup => lookup.getD (row * s.cols + col) []
    | none => singleCharOf s.characters

/-- The live render loop's per-cell primary-axis value: the filtered luminance
mapped through `mapToFontAxis` onto `[minAxis, maxAxis]`. -/
def liveCellAxis (powFn : ℚ → ℚ → ℚ) (s : CellSettings) (pix : Pixel) : ℤ :=
  mapToFontAxis (filterLuminance powFn s pix.luminance) s.minAxis s.maxAxis

/-- Character selection of `exportToPNG4x`'s per-cell body
(src/hooks/useImageExport.ts): identical to the live loop except for the
additional sequential branch taken when `randomize` is off
(`characters[position % characters.length]`). -/
def exportCellChar (s : CellSettings) (gradientChars : List Char)
    (charLookup : Option (List (List Char))) (pix : Pixel) (row col : ℕ) :
    List Char :=
  if ¬ 1 < s.characters.length then singleCharOf s.characters
  else if s.randomize = false then
    [s.characters.getD ((row * s.cols + col) % s.characters.length) ' ']
  else if s.mappingMode = .hue then getCharByHue gradientChars pix.hue
  else if s.mappingMode = .gradient then getCharByLuminance gradientChars pix.luminance
  else
    match charLookup with
    | some lookup => lookup.getD (row * s.cols + col) []
    | none => singleCharOf s.characters

/-- The 4x exporter's per-cell primary-axis value (same filter chain and
mapping as the live loop). -/
def exportCellAxis (powFn : ℚ → ℚ → ℚ) (s : CellSettings) (pix : Pixel) : ℤ :=
  mapToFontAxis (filterLuminance powFn s pix.luminance) s.minAxis s.maxAxis

/-- The 4x exporter's raster scaling: `scaledFontSize = fontSize * 4` (the
`scale = 4` constant of `exportToPNG4x`). -/
def exportScaledFontSize (fontSize : ℚ) : ℚ := fontSize * 4

end VaritypeCam

namespace VaritypeCam

/-! ## MIDI message parsing (src/hooks/useMidi.ts, `parseMidiMessage`) -/

/-- Decoded channel-voice message (the tagged union published by the hook). -/
inductive MidiMessage
  | cc (channel controller value : ℕ)
  | note (channel noteNum velocity : ℕ) (isOn : Bool)
  deriving Repr, DecidableEq

/-- The channel field of a decoded message. -/
def MidiMessage.channel : MidiMessage → ℕ
  | .cc c _ _ => c
  | .note c _ _ _ => c

/-- `parseMidiMessage` over the raw byte list: messages shorter than 3 bytes
are dropped; the high nibble of the status byte selects the family
(`0xB0` Control Change, `0x90` Note On, `0x80` Note Off), the low nibble plus
one gives the channel, and a Note On with velocity 0 decodes with `on = false`. -/
def parseMidiMessage (data : List ℕ) : Option MidiMessage :=
  match data with
  | status :: data1 :: data2 :: _ =>
    let messageType := status &&& 0xf0
    let channel := (status &&& 0x0f) + 1
    if messageType = 0xb0 then
      some (.cc channel data1 data2)
    else if messageType = 0x90 ∨ messageType = 0x80 then
      some (.note channel data1 data2 (messageType = 0x90 && 0 < data2))
    else
      none
  | _ => none

end VaritypeCam

namespace VaritypeCam

/-! ## Generator traces (determinism / no-shared-state of `SeededRandom`)

`SeededRandom` instances are objects whose only state is the private `seed`
field. To state that two instances with the same seed produce identical
output sequences regardless of interleaved activity of other instances, we
interpret traces of constructor calls and `next()` calls against a store
mapping generator ids to their current state. -/

/-- A constructor call `new SeededRandom(seed)` for instance `gid`, or a
`next()` call on instance `gid`. -/
inductive RngCmd
  | create (gid seed : ℕ)
  | callNext (gid : ℕ)
  deriving Repr, DecidableEq

/-- The instance a command acts on. -/
def RngCmd.gid : RngCmd → ℕ
  | .create g _ => g
  | .callNext g => g

/-- The global store: each instance id's current generator state, if the
instance exists. -/
def RngStore : Type := ℕ → Option ℕ

/-- Interpret one command: construction installs the seed as state; `next()`
advances the instance's state and emits the `[0,1)` output. -/
def stepCmd (c : RngCmd) (store : RngStore) : RngStore × Option ℚ :=
  match c with
  | .create g s => (fun g' => if g' = g then some s else store g', none)
  | .callNext g =>
    match store g with
    | some st =>
      (fun g' => if g' = g then some (mbNext st).1 else store g', some (mbNextVal st))
    | none => (store, none)

/-- The outputs observed at instance `g`'s own commands along a trace. -/
def gOutputs (g : ℕ) : List RngCmd → RngStore → List (Option ℚ)
  | [], _ => []
  | c :: cs, store =>
    let step := stepCmd c store
    if c.gid = g then step.2 :: gOutputs g cs step.1
    else gOutputs g cs step.1

/-- Interpretation of a trace that touches only one instance, tracking just
that instance's state. -/
def localRun : List RngCmd → Option ℕ → List (Option ℚ)
  | [], _ => []
  | .create _ s :: cs, _ => none :: localRun cs (some s)
  | .callNext _ :: cs, some st => some (mbNextVal st) :: localRun cs (some (mbNext st).1)
  | .callNext _ :: cs, none => none :: localRun cs none

/-- The trace consisting of constructing instance `g` with `seed` and then
calling `next()` on it `n` times. -/
def mkProg (g seed n : ℕ) : List RngCmd :=
  RngCmd.create g seed :: List.replicate n (RngCmd.callNext g)

end VaritypeCam

namespace VaritypeCam

/-! ## Claim C1: contrast 0 is the exact identity point -/

/-- C1: for every luminance `L`, `applyContrast(L, 0) = clamp(L, 0, 255)`,
and within the exposed contrast range `[0, 200]` the factor
`259·(c+255)/(255·(259−c))` equals 1 exactly when `c = 0`. -/
theorem applyContrast_zero_identity :
    (∀ L : ℚ, applyContrast L 0 = max 0 (min 255 L)) ∧
    (∀ c : ℚ, 0 ≤ c → c ≤ 200 → (contrastFactor c = 1 ↔ c = 0)) := by
  constructor
  · intro L
    have hf : contrastFactor 0 = 1 := by norm_num [contrastFactor]
    rw [applyContrast, hf]
    ring_nf
  · intro c h0 h200
    have hden : (255 : ℚ) * (259 - c) ≠ 0 := by
      have : (0 : ℚ) < 255 * (259 - c) := by nlinarith
      exact ne_of_gt this
    rw [contrastFactor, div_eq_one_iff_eq hden]
    constructor
    · intro h; linarith
    · intro h; subst h; norm_num

end VaritypeCam

namespace VaritypeCam

/-- C1 witness: the theorem instantiated at `L = 300` and `c = 100`. -/
theorem applyContrast_zero_identity_witness :
    applyContrast 300 0 = max 0 (min 255 300) ∧ ¬ contrastFactor 100 = 1 := by
  refine ⟨applyContrast_zero_identity.1 300, fun h => ?_⟩
  have h100 := (applyContrast_zero_identity.2 100 (by norm_num) (by norm_num)).mp h
  norm_num at h100

/-! ## Claim C5: the axis value of mid-gray luminance 128 -/

/-- C5 counterexample: `mapToFontAxis(128, 100, 900)` is NOT `500` (the
value the spec states): `100 + (128/255)·800 = 501.568…`, which rounds up. -/
theorem mapToFontAxis_mid_ne :
    mapToFontAxis 128 100 900 ≠ 500 := by
  have : mapToFontAxis 128 100 900 = ⌊(51211 : ℚ) / 102⌋ := by
    rw [mapToFontAxis, jsRound]
    norm_num
  have h : ⌊(51211 : ℚ) / 102⌋ = 502 := by
    rw [Int.floor_eq_iff]
    norm_num
  rw [this, h]
  norm_num

/-- C5 (amended): for the default geist-mono 100–900 range, a solid mid-gray
cell of luminance 128 maps to the primary-axis value 502 (not 500: 128/255 is
slightly above one half, and `Math.round` rounds 501.568… up). -/
theorem mapToFontAxis_mid :
    mapToFontAxis 128 100 900 = 502 := by
  have : mapToFontAxis 128 100 900 = ⌊(51211 : ℚ) / 102⌋ := by
    rw [mapToFontAxis, jsRound]
    norm_num
  rw [this, Int.floor_eq_iff]
  norm_num

/-! ## Claim C10: `getRandomChar` on an empty character string -/

/-- C10: for every seed and position, `getRandomChar` applied to the empty
character string returns the one-character string `" "` (the embedding's
empty list also covers the JavaScript `!chars` falsy guard for
null/undefined). -/
theorem getRandomChar_empty :
    ∀ seed position : ℕ, getRandomChar [] seed position = [' '] := by
  intro seed position
  simp [getRandomChar]

end VaritypeCam

namespace VaritypeCam

/-! ## Claim C3: sequential character selection with randomize off -/

/-- C3: with `randomize` off and more than one character, the exporter's
per-cell loop draws `characters[(row·cols + col) % characters.length]`, and
this choice is unchanged by the brightness, contrast, gamma and invert
filters. -/
theorem export_sequential_char (s : CellSettings) (gradientChars : List Char)
    (charLookup : Option (List (List Char))) (pix : Pixel) (row col : ℕ)
    (hlen : 1 < s.characters.length) (hrand : s.randomize = false) :
    exportCellChar s gradientChars charLookup pix row col =
      [s.characters.getD ((row * s.cols + col) % s.characters.length) ' '] ∧
    ∀ b c g i,
      exportCellChar
        { s with brightness := b, contrast := c, gamma := g, invert := i }
        gradientChars charLookup pix row col =
      exportCellChar s gradientChars charLookup pix row col := by
  constructor
  · simp [exportCellChar, hlen, hrand]
  · intro b c g i
    rfl

/-- C3 witness settings: "MAX" preset, gradient mapping, randomize off, a
5-column grid. -/
def c3Settings : CellSettings :=
  { characters := ['M', 'A', 'X'], mappingMode := .gradient, randomize := false,
    brightness := 0, contrast := 100, gamma := 1, invert := false,
    minAxis := 100, maxAxis := 900, cols := 5 }

/-- C3 witness pixel. -/
def c3Pixel : Pixel := ⟨10, 20, 30, 18, 210⟩

/-- C3 witness: the theorem instantiated at cell (1,2) of the witness
settings; position 7 mod 3 selects `'A'`. -/
theorem export_sequential_char_witness :
    exportCellChar c3Settings ['X', 'M', 'A'] none c3Pixel 1 2 =
      [c3Settings.characters.getD ((1 * c3Settings.cols + 2) %
        c3Settings.characters.length) ' '] ∧
    exportCellChar c3Settings ['X', 'M', 'A'] none c3Pixel 1 2 = ['A'] := by
  have h := export_sequential_char c3Settings ['X', 'M', 'A'] none c3Pixel 1 2
    (by decide) (by decide)
  refine ⟨h.1, h.1.trans ?_⟩
  decide

/-! ## Claim C8: MIDI channel-voice decoding -/

/-- C8: for a well-formed 3-byte channel-voice message, the parser selects
the family from the status byte's high nibble (0xB0 CC, 0x90 Note On,
0x80 Note Off), reports the channel as the low nibble plus one (always in
1–16), and decodes a Note On with velocity 0 as `isOn = false`. -/
theorem parseMidiMessage_spec (status data1 data2 : ℕ) (rest : List ℕ)
    (hs : status < 256) (h1 : data1 < 128) (h2 : data2 < 128) :
    ((status &&& 0xf0 = 0xb0) →
      parseMidiMessage (status :: data1 :: data2 :: rest) =
        some (.cc ((status &&& 0x0f) + 1) data1 data2)) ∧
    ((status &&& 0xf0 = 0x90) → data2 = 0 →
      parseMidiMessage (status :: data1 :: data2 :: rest) =
        some (.note ((status &&& 0x0f) + 1) data1 0 false)) ∧
    ((status &&& 0xf0 = 0x80) →
      parseMidiMessage (status :: data1 :: data2 :: rest) =
        some (.note ((status &&& 0x0f) + 1) data1 data2 false)) ∧
    (∀ m, parseMidiMessage (status :: data1 :: data2 :: rest) = some m →
      1 ≤ m.channel ∧ m.channel ≤ 16) := by
  have hlow : status &&& 0x0f ≤ 15 := Nat.and_le_right
  refine ⟨?_, ?_, ?_, ?_⟩
  · intro h
    simp [parseMidiMessage, h]
  · intro h hv
    subst hv
    simp [parseMidiMessage, h]
  · intro h
    simp [parseMidiMessage, h]
  · intro m hm
    simp only [parseMidiMessage] at hm
    split at hm
    · cases hm
      exact ⟨Nat.le_add_left 1 _,
        by simpa [MidiMessage.channel] using Nat.add_le_add_right hlow 1⟩
    · split at hm
      · cases hm
        exact ⟨Nat.le_add_left 1 _,
          by simpa [MidiMessage.channel] using Nat.add_le_add_right hlow 1⟩
      · cases hm

end VaritypeCam

namespace VaritypeCam

/-- C8 witness: a Control Change on channel 4 (status 0xB3) and a Note On
with velocity 0 on channel 6 (status 0x95), decoded through the theorem. -/
theorem parseMidiMessage_spec_witness :
    parseMidiMessage [0xb3, 7, 64] = some (.cc 4 7 64) ∧
    parseMidiMessage [0x95, 60, 0] = some (.note 6 60 0 false) := by
  constructor
  · have h := (parseMidiMessage_spec 0xb3 7 64 []
      (by norm_num) (by norm_num) (by norm_num)).1 (by decide)
    rw [h]
    decide
  · have h := (parseMidiMessage_spec 0x95 60 0 []
      (by norm_num) (by norm_num) (by norm_num)).2.1 (by decide) rfl
    rw [h]
    decide

end VaritypeCam

namespace VaritypeCam

/-! ## Grid-dimension lemmas and claims C9, C4 -/

/-- Every resolved aspect option is positive and at most 16/9. -/
theorem resolveAspect_bounds (s : String) :
    0 < resolveAspect s ∧ resolveAspect s ≤ 16 / 9 := by
  unfold resolveAspect
  split_ifs <;> norm_num

/-- Every catalog font's glyph aspect value is 0.5 or 0.6. -/
theorem fonts_charAspect (f : FontConfig) (hf : f ∈ FONTS) :
    f.charAspect = 1 / 2 ∨ f.charAspect = 3 / 5 := by
  fin_cases hf <;> norm_num

/-- The target canvas width `min(viewportWidth·0.8, 1600)` cancels out of the
columns computation: `cols = ⌊resolution / letterSpacing⌋`. -/
theorem gridDimensions_cols_eq (vw ar : ℚ) (aspectOpt : String) (res ls lh : ℚ)
    (hvw : 0 < vw) (har : 0 < ar) (hres : 0 < res) (hls : 0 < ls) :
    (gridDimensions vw ar aspectOpt res ls lh).cols = ⌊res / ls⌋ := by
  have hW : 0 < min (vw * 0.8) 1600 := lt_min (by positivity) (by norm_num)
  simp only [gridDimensions]
  congr 1
  rw [div_eq_div_iff]
  · field_simp
    ring
  · positivity
  · positivity

/-- The same cancellation for the `gridDimensions` copy in `AsciiCam.tsx`. -/
theorem gridDimensionsCam_cols_eq (vw ar : ℚ) (aspectOpt : String)
    (res ls lh : ℚ)
    (hvw : 0 < vw) (har : 0 < ar) (hres : 0 < res) (hls : 0 < ls) :
    (gridDimensionsCam vw ar aspectOpt res ls lh).cols = ⌊res / ls⌋ := by
  have hW : 0 < min (vw * 0.8) 1600 := lt_min (by positivity) (by norm_num)
  simp only [gridDimensionsCam]
  congr 1
  rw [div_eq_div_iff]
  · field_simp
    ring
  · positivity
  · positivity

/-- The viewport width also cancels out of the rows computation:
`rows = ⌊resolution·charAspect / (aspect·lineHeight)⌋`. -/
theorem gridDimensions_rows_eq (vw ar : ℚ) (aspectOpt : String) (res ls lh : ℚ)
    (hvw : 0 < vw) (har : 0 < ar) (hres : 0 < res) (hls : 0 < ls)
    (hlh : 0 < lh) :
    (gridDimensions vw ar aspectOpt res ls lh).rows =
      ⌊res * ar / (resolveAspect aspectOpt * lh)⌋ := by
  have hW : 0 < min (vw * 0.8) 1600 := lt_min (by positivity) (by norm_num)
  have hA : 0 < resolveAspect aspectOpt := (resolveAspect_bounds aspectOpt).1
  simp only [gridDimensions]
  congr 1
  rw [div_eq_div_iff]
  · field_simp
    ring
  · positivity
  · positivity

/-- C9: for every positive viewport width, glyph aspect value, and
aspect-ratio option, the column count of both `gridDimensions` copies equals
`⌊resolution / letterSpacing⌋` — it depends only on the resolution and
letter-spacing controls (exact-rational embedding of the JavaScript
arithmetic). -/
theorem cols_depend_only_on_resolution_spacing (vw ar : ℚ) (aspectOpt : String)
    (res ls lh : ℚ)
    (hvw : 0 < vw) (har : 0 < ar) (hres : 0 < res) (hls : 0 < ls) :
    (gridDimensions vw ar aspectOpt res ls lh).cols = ⌊res / ls⌋ ∧
    (gridDimensionsCam vw ar aspectOpt res ls lh).cols = ⌊res / ls⌋ :=
  ⟨gridDimensions_cols_eq vw ar aspectOpt res ls lh hvw har hres hls,
   gridDimensionsCam_cols_eq vw ar aspectOpt res ls lh hvw har hres hls⟩

/-- C9 witness: at viewport 1000, glyph aspect 3/5, the Tarot option,
resolution 100 and letter-spacing 1, both copies compute
`⌊100/1⌋` columns. -/
theorem cols_depend_only_on_resolution_spacing_witness :
    (gridDimensions 1000 (3 / 5) "Tarot" 100 1 1).cols = ⌊(100 : ℚ) / 1⌋ ∧
    (gridDimensionsCam 1000 (3 / 5) "Tarot" 100 1 1).cols = ⌊(100 : ℚ) / 1⌋ :=
  cols_depend_only_on_resolution_spacing 1000 (3 / 5) "Tarot" 100 1 1
    (by norm_num) (by norm_num) (by norm_num) (by norm_num)

/-- C4: for every catalog font, aspect-ratio option, resolution in [30,250],
letter spacing and line height in [0.6,1.6], and positive viewport width, the
computed grid has at least one column and one row and the render effect
draws; and whenever a dimension is non-positive the render effect returns
early (`none`) without drawing. -/
theorem grid_dims_invariant :
    (∀ f ∈ FONTS, ∀ (vw : ℚ) (aspectOpt : String) (res ls lh : ℚ),
      30 ≤ res → res ≤ 250 → 0.6 ≤ ls → ls ≤ 1.6 → 0.6 ≤ lh → lh ≤ 1.6 →
      0 < vw →
      1 ≤ (gridDimensions vw f.charAspect aspectOpt res ls lh).cols ∧
      1 ≤ (gridDimensions vw f.charAspect aspectOpt res ls lh).rows ∧
      renderEffect (gridDimensions vw f.charAspect aspectOpt res ls lh).cols
        (gridDimensions vw f.charAspect aspectOpt res ls lh).rows = some ()) ∧
    (∀ cols rows : ℤ, cols ≤ 0 ∨ rows ≤ 0 → renderEffect cols rows = none) := by
  constructor
  · intro f hf vw aspectOpt res ls lh hres1 hres2 hls1 hls2 hlh1 hlh2 hvw
    have har : 0 < f.charAspect := by
      rcases fonts_charAspect f hf with h | h <;> rw [h] <;> norm_num
    have hls0 : 0 < ls := lt_of_lt_of_le (by norm_num) hls1
    have hlh0 : 0 < lh := lt_of_lt_of_le (by norm_num) hlh1
    have hres0 : 0 < res := by linarith
    have hA := resolveAspect_bounds aspectOpt
    have hcols := gridDimensions_cols_eq vw f.charAspect aspectOpt res ls lh
      hvw har hres0 hls0
    have hrows := gridDimensions_rows_eq vw f.charAspect aspectOpt res ls lh
      hvw har hres0 hls0 hlh0
    have h1 : 1 ≤ (gridDimensions vw f.charAspect aspectOpt res ls lh).cols := by
      rw [hcols, Int.le_floor]
      push_cast
      rw [le_div_iff hls0]
      linarith
    have h2 : 1 ≤ (gridDimensions vw f.charAspect aspectOpt res ls lh).rows := by
      rw [hrows, Int.le_floor]
      push_cast
      have hAlh : 0 < resolveAspect aspectOpt * lh := by
        have := hA.1
        positivity
      rw [le_div_iff hAlh]
      rcases fonts_charAspect f hf with h | h <;> rw [h] <;> nlinarith [hA.1, hA.2]
    refine ⟨h1, h2, ?_⟩
    unfold renderEffect
    rw [if_neg (by omega)]
  · intro cols rows h
    unfold renderEffect
    rw [if_pos h]

end VaritypeCam

namespace VaritypeCam

/-- C4 witness: the default font at viewport 1000, 16:9, resolution 100
yields a positive grid, and a non-positive column count makes the render
effect bail. -/
theorem grid_dims_invariant_witness :
    1 ≤ (gridDimensions 1000
        (FontConfig.charAspect ⟨"geist-mono", "Geist Mono Variable", 0.6,
          ⟨"wght", "Weight", 100, 900⟩⟩) "16:9" 100 1 1).cols ∧
    renderEffect (-1) 5 = none := by
  constructor
  · exact (grid_dims_invariant.1 _ (by unfold FONTS; exact List.Mem.head _)
      1000 "16:9" 100 1 1 (by norm_num) (by norm_num) (by norm_num)
      (by norm_num) (by norm_num) (by norm_num) (by norm_num)).1
  · exact grid_dims_invariant.2 (-1) 5 (Or.inl (by norm_num))

/-! ## Claim C2: 4x-export per-cell fidelity -/

/-- C2 (amended): given the same pixel, settings, precomputed lookup table
and shuffled string, the live loop's and the exporter's per-cell primary-axis
values are identical unconditionally (for every `Math.pow` implementation),
the exporter's raster scale differs unconditionally by exactly the factor 4,
and the chosen characters are identical whenever the `randomize` flag is on. -/
theorem live_export_cell_agree (powFn : ℚ → ℚ → ℚ) (s : CellSettings)
    (gradientChars : List Char) (charLookup : Option (List (List Char)))
    (pix : Pixel) (row col : ℕ) :
    liveCellAxis powFn s pix = exportCellAxis powFn s pix ∧
    (∀ fontSize : ℚ, exportScaledFontSize fontSize = 4 * fontSize) ∧
    (s.randomize = true →
      liveCellChar s gradientChars charLookup pix row col =
        exportCellChar s gradientChars charLookup pix row col) := by
  refine ⟨rfl, fun fontSize => by rw [exportScaledFontSize]; ring, fun hrand => ?_⟩
  unfold liveCellChar exportCellChar
  rw [hrand]
  simp

/-- Settings exhibiting the C2 counterexample: a two-character set in
gradient mapping mode with the `randomize` flag off. -/
def c2Settings : CellSettings :=
  { characters := ['A', 'B'], mappingMode := .gradient, randomize := false,
    brightness := 0, contrast := 100, gamma := 1, invert := false,
    minAxis := 100, maxAxis := 900, cols := 2 }

/-- A solid-white pixel (luminance 255). -/
def c2Pixel : Pixel := ⟨255, 255, 255, 255, 0⟩

/-- C2 counterexample: with the `randomize` flag off, the same sampled pixel,
settings, lookup table and (unshuffled) gradient string, cell (0,0) is drawn
as `'B'` by the live loop (gradient selection) but `'A'` by the exporter
(sequential selection) — the per-cell characters are NOT identical. -/
theorem live_export_cell_differ :
    liveCellChar c2Settings ['A', 'B'] none c2Pixel 0 0 ≠
      exportCellChar c2Settings ['A', 'B'] none c2Pixel 0 0 ∧
    liveCellChar c2Settings ['A', 'B'] none c2Pixel 0 0 = ['B'] ∧
    exportCellChar c2Settings ['A', 'B'] none c2Pixel 0 0 = ['A'] := by
  have hlive : liveCellChar c2Settings ['A', 'B'] none c2Pixel 0 0 = ['B'] := by
    show getCharByLuminance ['A', 'B'] (255 : ℚ) = ['B']
    unfold getCharByLuminance
    norm_num
  have hexp : exportCellChar c2Settings ['A', 'B'] none c2Pixel 0 0 = ['A'] := by
    decide
  exact ⟨by rw [hlive, hexp]; decide, hlive, hexp⟩

/-- C2 witness: the amended theorem instantiated at the counterexample
settings (where `randomize` is off, exercising the unconditional conjuncts)
and at the same settings with the `randomize` flag turned on, discharging the
character-agreement hypothesis. -/
theorem live_export_cell_agree_witness :
    liveCellAxis (fun a b => a * b) c2Settings c2Pixel =
      exportCellAxis (fun a b => a * b) c2Settings c2Pixel ∧
    exportScaledFontSize 10 = 4 * 10 ∧
    liveCellChar { c2Settings with randomize := true } ['A', 'B'] none
        c2Pixel 0 0 =
      exportCellChar { c2Settings with randomize := true } ['A', 'B'] none
        c2Pixel 0 0 :=
  ⟨(live_export_cell_agree (fun a b => a * b) c2Settings ['A', 'B'] none
      c2Pixel 0 0).1,
   (live_export_cell_agree (fun a b => a * b) c2Settings ['A', 'B'] none
      c2Pixel 0 0).2.1 10,
   (live_export_cell_agree (fun a b => a * b)
      { c2Settings with randomize := true } ['A', 'B'] none c2Pixel 0 0).2.2 rfl⟩

end VaritypeCam

namespace VaritypeCam

/-! ## Claim C6: `shuffleString` is a permutation -/

/-- Setting index `i` to `a` and consing the replaced element permutes to
consing `a` onto the original list. -/
theorem cons_set_perm (l : List Char) :
    ∀ (i : ℕ) (hi : i < l.length) (a : Char),
      (l.get ⟨i, hi⟩ :: l.set i a).Perm (a :: l) := by
  induction l with
  | nil => intro i hi a; simp at hi
  | cons b t ih =>
    intro i hi a
    cases i with
    | zero =>
      simp only [List.get, List.set]
      exact List.Perm.swap a b t
    | succ k =>
      have hk : k < t.length := by simpa using hi
      have ihk := ih k hk a
      simp only [List.get, List.set]
      exact (List.Perm.swap b (t.get ⟨k, hk⟩) (t.set k a)).trans
        ((ihk.cons b).trans (List.Perm.swap a b t))

/-- Exchanging the elements at two in-range indices is a permutation. -/
theorem set_set_perm (l : List Char) (i j : ℕ) (hi : i < l.length)
    (hj : j < l.length) :
    ((l.set i (l.get ⟨j, hj⟩)).set j (l.get ⟨i, hi⟩)).Perm l := by
  set a := l.get ⟨i, hi⟩ with ha
  set b := l.get ⟨j, hj⟩ with hb
  have hj' : j < (l.set i b).length := by simpa using hj
  have hval : (l.set i b).get ⟨j, hj'⟩ = b := by
    by_cases hij : i = j
    · subst hij
      simp [List.get_set]
    · simp only [List.get_set, if_neg hij]
  have h1 := cons_set_perm l i hi b
  have h2 := cons_set_perm (l.set i b) j hj' a
  rw [hval] at h2
  exact (h2.trans h1).cons_inv

/-- The destructuring swap of `shuffleString` is a permutation for any pair
of indices. -/
theorem listSwap_perm (l : List Char) (i j : ℕ) : (listSwap l i j).Perm l := by
  unfold listSwap
  split
  · rename_i a b h1 h2
    obtain ⟨hi', rfl⟩ := List.get?_eq_some.mp h1
    obtain ⟨hj', rfl⟩ := List.get?_eq_some.mp h2
    exact set_set_perm l i j hi' hj'
  · exact List.Perm.refl l

/-- Every run of the Fisher–Yates loop permutes its input list. -/
theorem shuffleAux_perm :
    ∀ (fuel state : ℕ) (l : List Char), (shuffleAux state l fuel).Perm l := by
  intro fuel
  induction fuel with
  | zero => intro state l; exact List.Perm.refl l
  | succ k ih =>
    intro state l
    exact (ih _ _).trans (listSwap_perm l (k + 1) _)

/-- C6: for every seed and string, `shuffleString` returns a permutation of
its input: same length and the same per-character count (character-frequency
multiset). -/
theorem shuffleString_perm (str : List Char) (seed : ℕ) :
    (shuffleString str seed).length = str.length ∧
    ∀ c : Char, (shuffleString str seed).count c = str.count c := by
  have h : (shuffleString str seed).Perm str := shuffleAux_perm _ _ _
  exact ⟨h.length_eq, fun c => h.count_eq c⟩

end VaritypeCam

namespace VaritypeCam

/-! ## Claim C7: generator determinism and `getRandomChar` purity -/

/-- Bool test whether a command targets instance `g`. -/
def isGid (g : ℕ) (c : RngCmd) : Bool := c.gid == g

/-- A command on another instance leaves instance `g`'s state untouched. -/
theorem stepCmd_preserves (c : RngCmd) (σ : RngStore) (g : ℕ)
    (h : ¬ c.gid = g) : (stepCmd c σ).1 g = σ g := by
  cases c with
  | create g' s =>
    simp only [stepCmd]
    exact if_neg fun e => h e.symm
  | callNext g' =>
    rcases hσ : σ g' with _ | st
    · simp [stepCmd, hσ]
    · simp only [stepCmd, hσ]
      exact if_neg fun e => h e.symm

/-- The outputs observed at instance `g` depend only on the subtrace of
commands targeting `g` and on `g`'s initial state. -/
theorem gOutputs_eq_localRun (g : ℕ) :
    ∀ (T : List RngCmd) (σ : RngStore),
      gOutputs g T σ = localRun (T.filter (isGid g)) (σ g) := by
  intro T
  induction T with
  | nil => intro σ; rfl
  | cons c cs ih =>
    intro σ
    by_cases h : c.gid = g
    · have hkeep : List.filter (isGid g) (c :: cs) =
          c :: List.filter (isGid g) cs :=
        List.filter_cons_of_pos (by simp [isGid, h])
      rw [hkeep]
      cases c with
      | create g' s =>
        have hg : g' = g := h
        subst hg
        simp only [gOutputs, stepCmd, RngCmd.gid, if_pos rfl, localRun]
        rw [ih]
        simp
      | callNext g' =>
        have hg : g' = g := h
        subst hg
        rcases hσ : σ g' with _ | st
        · simp only [gOutputs, stepCmd, RngCmd.gid, if_pos rfl, hσ, localRun]
          rw [ih, hσ]
          simp
        · simp only [gOutputs, stepCmd, RngCmd.gid, if_pos rfl, hσ, localRun]
          rw [ih]
          simp
    · have hskip : List.filter (isGid g) (c :: cs) = List.filter (isGid g) cs :=
        List.filter_cons_of_neg (by simp [isGid, h])
      rw [hskip]
      simp only [gOutputs, if_neg h]
      rw [ih, stepCmd_preserves c σ g h]

/-- A block of `next()` calls interpreted locally does not depend on the
instance id carried by the commands. -/
theorem localRun_replicate_callNext :
    ∀ (n g₁ g₂ : ℕ) (st : Option ℕ),
      localRun (List.replicate n (RngCmd.callNext g₁)) st =
        localRun (List.replicate n (RngCmd.callNext g₂)) st := by
  intro n
  induction n with
  | zero => intro g₁ g₂ st; rfl
  | succ k ih =>
    intro g₁ g₂ st
    cases st with
    | none =>
      simp only [List.replicate, localRun]
      rw [ih]
    | some s =>
      simp only [List.replicate, localRun]
      rw [ih]

/-- The canonical single-instance program touches only its own instance. -/
theorem filter_mkProg (g seed n : ℕ) :
    List.filter (isGid g) (mkProg g seed n) = mkProg g seed n := by
  refine List.filter_eq_self.mpr ?_
  intro c hc
  rcases List.mem_cons.mp hc with rfl | hc
  · simp [isGid, RngCmd.gid]
  · rw [List.eq_of_mem_replicate hc]
    simp [isGid, RngCmd.gid]

/-- C7: (1) the outputs of a `SeededRandom` instance along any trace depend
only on its own subtrace and initial state — interleaved activity of other
generators is irrelevant; (2) two instances constructed with the same seed
produce identical output sequences over any number of `next()` calls; (3)
`getRandomChar` is a pure function of the character string and `seed +
position` (it constructs a fresh generator seeded with `seed + position` on
every call). -/
theorem seededRandom_isolated :
    (∀ (g : ℕ) (T₁ T₂ : List RngCmd) (σ₁ σ₂ : RngStore),
      T₁.filter (isGid g) = T₂.filter (isGid g) → σ₁ g = σ₂ g →
      gOutputs g T₁ σ₁ = gOutputs g T₂ σ₂) ∧
    (∀ (g₁ g₂ seed n : ℕ) (σ : RngStore),
      gOutputs g₁ (mkProg g₁ seed n) σ = gOutputs g₂ (mkProg g₂ seed n) σ) ∧
    (∀ (chars : List Char) (seed₁ pos₁ seed₂ pos₂ : ℕ),
      seed₁ + pos₁ = seed₂ + pos₂ →
      getRandomChar chars seed₁ pos₁ = getRandomChar chars seed₂ pos₂) := by
  refine ⟨?_, ?_, ?_⟩
  · intro g T₁ T₂ σ₁ σ₂ hfilter hst
    rw [gOutputs_eq_localRun, gOutputs_eq_localRun, hfilter, hst]
  · intro g₁ g₂ seed n σ
    rw [gOutputs_eq_localRun, gOutputs_eq_localRun, filter_mkProg, filter_mkProg]
    simp only [mkProg, localRun]
    rw [localRun_replicate_callNext n g₁ g₂ (some seed)]
  · intro chars seed₁ pos₁ seed₂ pos₂ h
    unfold getRandomChar
    rw [h]

/-- A trace interleaving instance 0's program with activity on instance 1. -/
def c7TraceA : List RngCmd :=
  [.create 0 7, .callNext 0, .callNext 1, .callNext 0]

/-- A different interleaving with the same instance-0 subtrace. -/
def c7TraceB : List RngCmd :=
  [.create 1 9, .create 0 7, .callNext 0, .callNext 0]

/-- C7 witness: the theorem applied to the two concrete interleavings and to
`getRandomChar` at `40 + 2 = 12 + 30`. -/
theorem seededRandom_isolated_witness :
    gOutputs 0 c7TraceA (fun _ => none) = gOutputs 0 c7TraceB (fun _ => none) ∧
    getRandomChar ['M', 'A', 'X'] 40 2 = getRandomChar ['M', 'A', 'X'] 12 30 :=
  ⟨seededRandom_isolated.1 0 c7TraceA c7TraceB _ _ (by decide) rfl,
   seededRandom_isolated.2.2 ['M', 'A', 'X'] 40 2 12 30 (by norm_num)⟩

end VaritypeCam
